import Mathlib

/-!
Verification of the TokenShield tokenization core against its
natural-language specification.  The Python sources
(`tokenizer/app.py`, `tokenizer/icap_server.py`, `api/app.py`) are
shallowly embedded below: pure helpers become Lean functions, the MySQL
vault becomes an explicit list of records threaded through the
operations, randomness (token generation, encryption nonces) becomes
explicit parameters, and the Fernet cipher becomes an abstract
`Cipher` whose round-trip property is a hypothesis where needed.
-/

namespace TokenShield

/-! ### Character and digit helpers -/

/-- Numeric value of an ASCII digit character (Python `int(d)` on a digit). -/
def digitVal (c : Char) : Nat := c.toNat - 48

/-- Python `re.sub(r'[^0-9]', '', s)`: keep only ASCII digits. -/
def cleanDigits (s : String) : List Char := s.data.filter Char.isDigit

/-- The digits-only canonical form of a candidate PAN. -/
def canonicalDigits (s : String) : String := String.mk (cleanDigits s)

/-! ### Luhn check (`tokenizer/app.py`, `luhn_check`) -/

/-- Helper for `digitsSum`: peel one decimal digit per step; the fuel is an
upper bound on the number of digits (`n` itself more than suffices). -/
def digitsSumGo : Nat → Nat → Nat
  | 0, _ => 0
  | fuel + 1, n => if n < 10 then n else n % 10 + digitsSumGo fuel (n / 10)

/-- Sum of the decimal digits of `n` (Python `sum(digits_of(n))`). -/
def digitsSum (n : Nat) : Nat := digitsSumGo n n

/-- Python extended slice `l[0::2]`: every other element starting at the head.
`luhn_check` applies this to the reversed digit list (`digits[-1::-2]`). -/
def everyOther : List Nat → List Nat
  | [] => []
  | [a] => [a]
  | a :: _ :: rest => a :: everyOther rest

/-- The checksum computed by `luhn_check`: `odd_digits = digits[-1::-2]` are
summed as-is, `even_digits = digits[-2::-2]` are doubled and the decimal
digits of each doubled value are summed. -/
def luhnChecksum (digits : List Nat) : Nat :=
  let odd := everyOther digits.reverse
  let even := everyOther digits.reverse.tail
  odd.sum + (even.map (fun d => digitsSum (2 * d))).sum

/-- `luhn_check` from `tokenizer/app.py`: callers always pass a digits-only
string (`clean_card`), whose characters are mapped to their numeric values. -/
def luhn_check (card : String) : Bool :=
  luhnChecksum (card.data.map digitVal) % 10 == 0

/-- The Luhn mod-10 algorithm exactly as the specification words it:
sum from the rightmost digit; every second digit (second-from-right
onward) is doubled, and doubled values ≥ 10 are reduced by digit-sum.
The Boolean flag records whether the current digit is in a doubled
position. -/
def specLuhnGo : List Nat → Bool → Nat
  | [], _ => 0
  | d :: rest, false => d + specLuhnGo rest true
  | d :: rest, true =>
      (if 10 ≤ 2 * d then digitsSum (2 * d) else 2 * d) + specLuhnGo rest false

/-- Specification-side Luhn total: traverse from the rightmost digit with the
rightmost digit not doubled. -/
def specLuhnSum (digits : List Nat) : Nat := specLuhnGo digits.reverse false

/-! ### Brand classification (`tokenizer/app.py`, `CARD_PATTERNS` /
`detect_card_type`) -/

/-- Regex `CARD_PATTERNS['visa'] = ^4[0-9]{12}(?:[0-9]{3})?$`: a leading `4`
followed by 12 or 15 further digits (total length 13 or 16). -/
def matchVisa : List Char → Bool
  | c :: rest =>
      c == '4' && rest.all Char.isDigit
        && (rest.length == 12 || rest.length == 15)
  | [] => false

/-- Regex `CARD_PATTERNS['mastercard'] = ^5[1-5][0-9]{14}$`; the character
class `[1-5]` is the set `{'1','2','3','4','5'}`. -/
def matchMastercard : List Char → Bool
  | c1 :: c2 :: rest =>
      c1 == '5'
        && (c2 == '1' || c2 == '2' || c2 == '3' || c2 == '4' || c2 == '5')
        && rest.all Char.isDigit && rest.length == 14
  | _ => false

/-- Regex `CARD_PATTERNS['amex'] = ^3[47][0-9]{13}$`. -/
def matchAmex : List Char → Bool
  | c1 :: c2 :: rest =>
      c1 == '3' && (c2 == '4' || c2 == '7')
        && rest.all Char.isDigit && rest.length == 13
  | _ => false

/-- Regex `CARD_PATTERNS['discover'] = ^6(?:011|5[0-9]{2})[0-9]{12}$`. -/
def matchDiscover : List Char → Bool
  | c1 :: c2 :: c3 :: c4 :: rest =>
      c1 == '6'
        && ((c2 == '0' && c3 == '1' && c4 == '1')
            || (c2 == '5' && c3.isDigit && c4.isDigit))
        && rest.all Char.isDigit && rest.length == 12
  | _ => false

/-- `detect_card_type` from `tokenizer/app.py`: strip non-digits, then try the
patterns in the dictionary's insertion order; first match wins, else
`unknown`. -/
def detect_card_type (card_number : String) : String :=
  let clean := cleanDigits card_number
  if matchVisa clean then "visa"
  else if matchMastercard clean then "mastercard"
  else if matchAmex clean then "amex"
  else if matchDiscover clean then "discover"
  else "unknown"

/-- Brand rules exactly as claim C6 words them: prefix 4 with length 13, 16 or
19 is visa; prefix 51–55 with length 16 is mastercard; prefix 34 or 37 with
length 15 is amex; prefix 6011 or 65 with length 16 is discover; otherwise
unknown. -/
def claimBrand (clean : List Char) : String :=
  if clean.head? = some '4'
      ∧ (clean.length = 13 ∨ clean.length = 16 ∨ clean.length = 19) then
    "visa"
  else if (clean.take 2 = ['5', '1'] ∨ clean.take 2 = ['5', '2']
      ∨ clean.take 2 = ['5', '3'] ∨ clean.take 2 = ['5', '4']
      ∨ clean.take 2 = ['5', '5']) ∧ clean.length = 16 then
    "mastercard"
  else if (clean.take 2 = ['3', '4'] ∨ clean.take 2 = ['3', '7'])
      ∧ clean.length = 15 then
    "amex"
  else if (clean.take 4 = ['6', '0', '1', '1'] ∨ clean.take 2 = ['6', '5'])
      ∧ clean.length = 16 then
    "discover"
  else "unknown"

/-- The brand rules of claim C6 amended only where the code forces it: visa
requires length 13 or 16 (the source regex `^4[0-9]{12}(?:[0-9]{3})?$` does
not accept 19 digits); everything else is as the claim states. -/
def amendedBrand (clean : List Char) : String :=
  if clean.head? = some '4'
      ∧ (clean.length = 13 ∨ clean.length = 16) then
    "visa"
  else if (clean.take 2 = ['5', '1'] ∨ clean.take 2 = ['5', '2']
      ∨ clean.take 2 = ['5', '3'] ∨ clean.take 2 = ['5', '4']
      ∨ clean.take 2 = ['5', '5']) ∧ clean.length = 16 then
    "mastercard"
  else if (clean.take 2 = ['3', '4'] ∨ clean.take 2 = ['3', '7'])
      ∧ clean.length = 15 then
    "amex"
  else if (clean.take 4 = ['6', '0', '1', '1'] ∨ clean.take 2 = ['6', '5'])
      ∧ clean.length = 16 then
    "discover"
  else "unknown"

/-! ### The vault (`credit_cards` table) -/

/-- Abstract model of the Fernet cipher (`cryptography.fernet.Fernet`).
Encryption is randomized (Fernet bundles a fresh IV with each ciphertext),
so `enc` takes an explicit nonce; decryption either recovers a plaintext or
fails (`none`, the caught-exception path).  Theorems that need correctness
of the cipher assume the Fernet round-trip property
`∀ nonce s, dec (enc nonce s) = some s` as a hypothesis. -/
structure Cipher where
  enc : Nat → String → String
  dec : String → Option String

/-- A row of the `credit_cards` table, as written by `store_card`.

Modelled from the spec: the SQL schema itself is not under `src/`; per the
spec (§3 data model, §6 schema) rows carry an `active` flag and newly
inserted rows are active (revoked entries remain in the store with
`active = false`).  All other fields are exactly the columns `store_card`
inserts. -/
structure CardRecord where
  token : String
  card_number_encrypted : String
  last_four_digits : String
  first_six_digits : String
  card_type : String
  expiry_month : Nat
  expiry_year : Nat
  active : Bool
  updated_at : Nat
deriving Repr, DecidableEq

/-- The vault state: the rows of `credit_cards` in insertion order. -/
abbrev Vault := List CardRecord

/-- `store_card` from `tokenizer/app.py`: encrypt the PAN, derive
`last_four = card_number[-4:]`, `first_six = card_number[:6]` and the brand,
then `INSERT ... ON DUPLICATE KEY UPDATE updated_at = CURRENT_TIMESTAMP`.
The table key is `token`, so a duplicate token only bumps `updated_at`;
otherwise a fresh active row is appended.  `nonce` models Fernet's random
IV and `now` models `CURRENT_TIMESTAMP`. -/
def store_card (cipher : Cipher) (nonce now : Nat)
    (card_number token : String) (db : Vault) : Vault :=
  let encrypted := cipher.enc nonce card_number
  let last_four := String.mk (card_number.data.drop (card_number.length - 4))
  let first_six := String.mk (card_number.data.take 6)
  let card_type := detect_card_type card_number
  if db.any (fun r => r.token == token) then
    db.map (fun r => if r.token == token then { r with updated_at := now } else r)
  else
    db ++ [{ token := token, card_number_encrypted := encrypted,
             last_four_digits := last_four, first_six_digits := first_six,
             card_type := card_type, expiry_month := 12, expiry_year := 2025,
             active := true, updated_at := now }]

/-- `retrieve_card` (identical in `tokenizer/app.py` and
`tokenizer/icap_server.py`): `SELECT card_number_encrypted FROM credit_cards
WHERE token = %s AND is_active = TRUE`, then decrypt; any decryption failure
is caught and yields `None`. -/
def retrieve_card (cipher : Cipher) (db : Vault) (token : String) : Option String :=
  match db.find? (fun r => r.token == token && r.active) with
  | some r => cipher.dec r.card_number_encrypted
  | none => none

/-- `revoke_token` from `api/app.py`: `UPDATE credit_cards SET is_active =
FALSE WHERE token = %s`, then report 404 if `cur.rowcount == 0` else 200.
MySQLdb is used without `CLIENT_FOUND_ROWS`, so `rowcount` counts rows the
`UPDATE` actually *changed* — i.e. rows that matched the token **and** were
still active.  Returns the new vault and the HTTP status. -/
def revoke_token (db : Vault) (token : String) : Vault × Nat :=
  let affected := db.countP (fun r => r.token == token && r.active)
  if affected == 0 then
    (db, 404)
  else
    (db.map (fun r => if r.token == token then { r with active := false } else r), 200)

/-! ### The tokenize path (`find_and_tokenize_cards.replace_card`) -/

/-- The acceptance test applied to a cleaned candidate inside
`replace_card`: `len(clean_card) >= 13 and len(clean_card) <= 19 and
luhn_check(clean_card)`. -/
def panAccepted (clean_card : String) : Bool :=
  (if 13 ≤ clean_card.length ∧ clean_card.length ≤ 19 then true else false)
    && luhn_check clean_card

/-- A PAN the scanner accepts: its digits-only form passes `panAccepted`. -/
def scannerAccepts (s : String) : Bool := panAccepted (canonicalDigits s)

/-- Result of one `replace_card` invocation: the text substituted for the
match, the updated vault, and the updated `tokens_map`. -/
structure TokenizeResult where
  out : String
  vault : Vault
  tokens_map : List (String × String)
deriving Repr, DecidableEq

/-- `replace_card`, the per-match closure of `find_and_tokenize_cards` in
`tokenizer/app.py`: clean the match; if accepted, generate a token
(`freshToken` models the `secrets`-based `generate_token()` draw), store the
cleaned card, record the mapping, and substitute the token; otherwise leave
the match verbatim and touch nothing. -/
def replace_card (cipher : Cipher) (nonce now : Nat) (freshToken : String)
    (potential_card : String) (db : Vault)
    (tokens_map : List (String × String)) : TokenizeResult :=
  let clean_card := canonicalDigits potential_card
  if panAccepted clean_card then
    { out := freshToken,
      vault := store_card cipher nonce now clean_card freshToken db,
      tokens_map := tokens_map ++ [(freshToken, potential_card)] }
  else
    { out := potential_card, vault := db, tokens_map := tokens_map }

/-- A vault row that is an active record for the plaintext PAN `pan`
(under `cipher`): it is active and decrypts to `pan`. -/
def activeRecordFor (cipher : Cipher) (pan : String) (r : CardRecord) : Bool :=
  r.active && (cipher.dec r.card_number_encrypted == some pan)

def testCipher : Cipher := { enc := fun _ s => s, dec := fun s => some s }

/-- A concrete active vault row used to evaluate `revoke_token`. -/
def demoRecord : CardRecord :=
  { token := "tok_r", card_number_encrypted := "4111111111111111",
    last_four_digits := "1111", first_six_digits := "411111",
    card_type := "visa", expiry_month := 12, expiry_year := 2025,
    active := true, updated_at := 0 }

/-! ### JSON model (Python's `json` module)

The ICAP detokenizer round-trips bodies through `json.loads` /
`json.dumps`.  Both are modelled below.  Numbers are modelled as integers
only: no claim under verification involves floats, and a body containing a
float literal is treated as unparseable by this model.  CPython's tolerated
lone `\uD800`–`\uDFFF` escapes are likewise rejected (Lean characters are
scalar values); no claim exercises them. -/

/-- JSON values as Python's `json` module produces them. -/
inductive Json where
  | null
  | bool (b : Bool)
  | num (n : Int)
  | str (s : String)
  | arr (elems : List Json)
  | obj (fields : List (String × Json))
deriving Repr, Inhabited

/-- Lowercase hexadecimal digit, as Python prints `\uXXXX` escapes. -/
def hexDigit (n : Nat) : Char :=
  if n < 10 then Char.ofNat (48 + n) else Char.ofNat (87 + n)

/-- A `\uXXXX` escape for a 16-bit code unit. -/
def uEscape (code : Nat) : List Char :=
  ['\\', 'u', hexDigit (code / 4096 % 16), hexDigit (code / 256 % 16),
   hexDigit (code / 16 % 16), hexDigit (code % 16)]

/-- `json.dumps` escaping of one character (default `ensure_ascii=True`):
`"` and `\` are escaped, the C shortcuts apply to the usual controls, every
other character outside `0x20`–`0x7e` becomes `\uXXXX`, as a surrogate pair
above `0xffff`. -/
def escapeChar (c : Char) : List Char :=
  if c = '"' then ['\\', '"']
  else if c = '\\' then ['\\', '\\']
  else if c = '\n' then ['\\', 'n']
  else if c = '\t' then ['\\', 't']
  else if c = '\r' then ['\\', 'r']
  else if c.toNat = 8 then ['\\', 'b']
  else if c.toNat = 12 then ['\\', 'f']
  else if c.toNat < 32 ∨ 126 < c.toNat then
    if c.toNat ≤ 65535 then uEscape c.toNat
    else uEscape (55296 + (c.toNat - 65536) / 1024)
          ++ uEscape (56320 + (c.toNat - 65536) % 1024)
  else [c]

/-- A serialized JSON string literal, quotes included. -/
def dumpStringChars (s : String) : List Char :=
  '"' :: (s.data.map escapeChar).flatten ++ ['"']

mutual

/-- `json.dumps` with its default separators `(', ', ': ')` and
`ensure_ascii=True`. -/
def dumps : Json → String
  | .null => "null"
  | .bool true => "true"
  | .bool false => "false"
  | .num n => toString n
  | .str s => String.mk (dumpStringChars s)
  | .arr xs => "[" ++ String.intercalate (", ") (dumpsList xs) ++ "]"
  | .obj kvs => "\x7b" ++ String.intercalate (", ") (dumpsObj kvs) ++ "\x7d"

def dumpsList : List Json → List String
  | [] => []
  | x :: rest => dumps x :: dumpsList rest

def dumpsObj : List (String × Json) → List String
  | [] => []
  | (k, v) :: rest =>
      (String.mk (dumpStringChars k) ++ ": " ++ dumps v) :: dumpsObj rest

end

/-- JSON whitespace accepted by Python's decoder. -/
def jsonWs (c : Char) : Bool := c == ' ' || c == '\t' || c == '\n' || c == '\r'

def skipWs : List Char → List Char
  | c :: rest => if jsonWs c then skipWs rest else c :: rest
  | [] => []

def hexVal? (c : Char) : Option Nat :=
  if c.isDigit then some (c.toNat - 48)
  else if 'a' ≤ c ∧ c ≤ 'f' then some (c.toNat - 87)
  else if 'A' ≤ c ∧ c ≤ 'F' then some (c.toNat - 55)
  else none

/-- Body of a JSON string literal after the opening quote, in `json.loads`
strict mode: raw control characters are rejected, the standard escapes and
`\uXXXX` (with surrogate pairs combined) are decoded.  One unit of fuel is
spent per consumed character. -/
def parseStringBody : Nat → List Char → List Char → Option (String × List Char)
  | 0, _, _ => none
  | _ + 1, acc, '"' :: rest => some (String.mk acc.reverse, rest)
  | fuel + 1, acc, '\\' :: e :: rest =>
      if e = '"' then parseStringBody fuel ('"' :: acc) rest
      else if e = '\\' then parseStringBody fuel ('\\' :: acc) rest
      else if e = '/' then parseStringBody fuel ('/' :: acc) rest
      else if e = 'b' then parseStringBody fuel (Char.ofNat 8 :: acc) rest
      else if e = 'f' then parseStringBody fuel (Char.ofNat 12 :: acc) rest
      else if e = 'n' then parseStringBody fuel ('\n' :: acc) rest
      else if e = 'r' then parseStringBody fuel ('\r' :: acc) rest
      else if e = 't' then parseStringBody fuel ('\t' :: acc) rest
      else if e = 'u' then
        match rest with
        | h1 :: h2 :: h3 :: h4 :: rest2 =>
          match hexVal? h1, hexVal? h2, hexVal? h3, hexVal? h4 with
          | some a, some b, some c, some d =>
            let code := ((a * 16 + b) * 16 + c) * 16 + d
            if 55296 ≤ code ∧ code ≤ 56319 then
              match rest2 with
              | '\\' :: 'u' :: g1 :: g2 :: g3 :: g4 :: rest3 =>
                match hexVal? g1, hexVal? g2, hexVal? g3, hexVal? g4 with
                | some a2, some b2, some c2, some d2 =>
                  let code2 := ((a2 * 16 + b2) * 16 + c2) * 16 + d2
                  if 56320 ≤ code2 ∧ code2 ≤ 57343 then
                    parseStringBody fuel
                      (Char.ofNat (65536 + (code - 55296) * 1024 + (code2 - 56320)) :: acc)
                      rest3
                  else none
                | _, _, _, _ => none
              | _ => none
            else if 56320 ≤ code ∧ code ≤ 57343 then none
            else parseStringBody fuel (Char.ofNat code :: acc) rest2
          | _, _, _, _ => none
        | _ => none
      else none
  | fuel + 1, acc, c :: rest =>
      if c.toNat < 32 then none else parseStringBody fuel (c :: acc) rest
  | _, _, [] => none

def digitsToNat (ds : List Char) : Nat :=
  ds.foldl (fun acc c => acc * 10 + (c.toNat - 48)) 0

/-- A JSON integer literal, Python grammar `-?(0|[1-9][0-9]*)`; a following
`.`, `e` or `E` (a float literal) makes the parse fail in this model. -/
def parseIntLit (cs : List Char) : Option (Int × List Char) :=
  let signed : Bool × List Char :=
    match cs with
    | '-' :: rest => (true, rest)
    | _ => (false, cs)
  let ds := signed.2.takeWhile Char.isDigit
  let rest := signed.2.dropWhile Char.isDigit
  if ds.isEmpty then none
  else if 1 < ds.length ∧ ds.head? = some '0' then none
  else
    match rest with
    | '.' :: _ => none
    | 'e' :: _ => none
    | 'E' :: _ => none
    | _ =>
      let n : Int := Int.ofNat (digitsToNat ds)
      some (if signed.1 then -n else n, rest)

/-- Python dict insertion while decoding an object: an existing key keeps
its position and takes the new value (last duplicate wins); a new key is
appended. -/
def objInsert : List (String × Json) → String → Json → List (String × Json)
  | [], k, v => [(k, v)]
  | (k1, v1) :: rest, k, v =>
      if k1 = k then (k1, v) :: rest else (k1, v1) :: objInsert rest k v

mutual

/-- One JSON value (with leading whitespace), Python's recursive-descent
decoder.  One unit of fuel is spent per recursion step; every step consumes
at least one character, so fuel `length + 1` always suffices. -/
def parseValue : Nat → List Char → Option (Json × List Char)
  | 0, _ => none
  | fuel + 1, cs =>
    match skipWs cs with
    | [] => none
    | c :: rest =>
      if c = '\x7b' then parseObjBody fuel rest
      else if c = '[' then parseArrBody fuel rest
      else if c = '"' then
        match parseStringBody (rest.length + 1) [] rest with
        | some (s, rest2) => some (.str s, rest2)
        | none => none
      else if c = 't' then
        match rest with
        | 'r' :: 'u' :: 'e' :: rest2 => some (.bool true, rest2)
        | _ => none
      else if c = 'f' then
        match rest with
        | 'a' :: 'l' :: 's' :: 'e' :: rest2 => some (.bool false, rest2)
        | _ => none
      else if c = 'n' then
        match rest with
        | 'u' :: 'l' :: 'l' :: rest2 => some (.null, rest2)
        | _ => none
      else
        match parseIntLit (c :: rest) with
        | some (n, rest2) => some (.num n, rest2)
        | none => none

def parseObjBody : Nat → List Char → Option (Json × List Char)
  | 0, _ => none
  | fuel + 1, cs =>
    match skipWs cs with
    | '\x7d' :: rest => some (.obj [], rest)
    | cs2 => parseMembers fuel [] cs2

def parseMembers : Nat → List (String × Json) → List Char →
    Option (Json × List Char)
  | 0, _, _ => none
  | fuel + 1, acc, cs =>
    match skipWs cs with
    | '"' :: rest =>
      match parseStringBody (rest.length + 1) [] rest with
      | some (key, rest2) =>
        match skipWs rest2 with
        | ':' :: rest3 =>
          match parseValue fuel rest3 with
          | some (v, rest4) =>
            match skipWs rest4 with
            | ',' :: rest5 => parseMembers fuel (objInsert acc key v) rest5
            | '\x7d' :: rest5 => some (.obj (objInsert acc key v), rest5)
            | _ => none
          | none => none
        | _ => none
      | none => none
    | _ => none

def parseArrBody : Nat → List Char → Option (Json × List Char)
  | 0, _ => none
  | fuel + 1, cs =>
    match skipWs cs with
    | ']' :: rest => some (.arr [], rest)
    | cs2 => parseElems fuel [] cs2

def parseElems : Nat → List Json → List Char → Option (Json × List Char)
  | 0, _, _ => none
  | fuel + 1, acc, cs =>
    match parseValue fuel cs with
    | some (v, rest) =>
      match skipWs rest with
      | ',' :: rest2 => parseElems fuel (acc ++ [v]) rest2
      | ']' :: rest2 => some (.arr (acc ++ [v]), rest2)
      | _ => none
    | none => none

end

/-- `json.loads`: parse one value and require only whitespace to follow. -/
def json_loads (s : String) : Option Json :=
  match parseValue (s.length + 1) s.data with
  | some (j, rest) => if (skipWs rest).isEmpty then some j else none
  | none => none

/-! ### The ICAP detokenizer (`tokenizer/icap_server.py`) -/

/-- A row of the `token_requests` audit table, as `log_request` writes it. -/
structure AuditEvent where
  token : String
  request_type : String
  source_ip : String
  destination_url : String
  response_status : Nat
deriving Repr, DecidableEq

/-- The regex character class `[A-Za-z0-9_-]` of the token patterns. -/
def isTokenChar (c : Char) : Bool :=
  c.isAlpha || c.isDigit || c == '_' || c == '-'

/-- Match the pattern `"(tok_[A-Za-z0-9_-]\x7b43\x7d)"` of `detokenize_json`
at the head of the character list: an opening quote, the literal `tok_`,
exactly 43 class characters, and a closing quote.  Returns the captured
token (without quotes) and the remainder after the closing quote. -/
def matchQuotedToken : List Char → Option (String × List Char)
  | '"' :: 't' :: 'o' :: 'k' :: '_' :: rest =>
      let body := rest.take 43
      if body.length == 43 && body.all isTokenChar then
        match rest.drop 43 with
        | '"' :: rest2 =>
            some (String.mk ('t' :: 'o' :: 'k' :: '_' :: body), rest2)
        | _ => none
      else none
  | _ => none

/-- Match the pattern `tok_[A-Za-z0-9_-]\x7b43\x7d` of
`detokenize_form_data` at the head of the character list. -/
def matchFormToken : List Char → Option (String × List Char)
  | 't' :: 'o' :: 'k' :: '_' :: rest =>
      let body := rest.take 43
      if body.length == 43 && body.all isTokenChar then
        some (String.mk ('t' :: 'o' :: 'k' :: '_' :: body), rest.drop 43)
      else none
  | _ => none

/-- The `re.sub` pass of `detokenize_json`: scan left to right; at each
match, record the token in `tokens_found`, look it up, and substitute the
quoted card number on a hit (logging a `detokenize` audit event) or leave
the match verbatim on a miss.  One unit of fuel per scanned position. -/
def subJsonTokensGo (cipher : Cipher) (db : Vault) (ip dest : String) :
    Nat → List Char → List Char × List String × List AuditEvent
  | 0, cs => (cs, [], [])
  | _ + 1, [] => ([], [], [])
  | fuel + 1, c :: rest =>
    match matchQuotedToken (c :: rest) with
    | some (tok, after) =>
      let r := subJsonTokensGo cipher db ip dest fuel after
      match retrieve_card cipher db tok with
      | some card =>
          ('"' :: card.data ++ '"' :: r.1, tok :: r.2.1,
            { token := tok, request_type := "detokenize", source_ip := ip,
              destination_url := dest, response_status := 200 } :: r.2.2)
      | none => ('"' :: tok.data ++ '"' :: r.1, tok :: r.2.1, r.2.2)
    | none =>
      let r := subJsonTokensGo cipher db ip dest fuel rest
      (c :: r.1, r.2.1, r.2.2)

/-- The `re.sub` pass on the canonical JSON text, with fuel `length`. -/
def subJsonTokens (cipher : Cipher) (db : Vault) (ip dest : String)
    (cs : List Char) : List Char × List String × List AuditEvent :=
  subJsonTokensGo cipher db ip dest cs.length cs

/-- The `re.sub` of `detokenize_form_data`, same scan without quotes. -/
def subFormTokensGo (cipher : Cipher) (db : Vault) (ip dest : String) :
    Nat → List Char → List Char × List AuditEvent
  | 0, cs => (cs, [])
  | _ + 1, [] => ([], [])
  | fuel + 1, c :: rest =>
    match matchFormToken (c :: rest) with
    | some (tok, after) =>
      let r := subFormTokensGo cipher db ip dest fuel after
      match retrieve_card cipher db tok with
      | some card =>
          (card.data ++ r.1,
            { token := tok, request_type := "detokenize", source_ip := ip,
              destination_url := dest, response_status := 200 } :: r.2)
      | none => (tok.data ++ r.1, r.2)
    | none =>
      let r := subFormTokensGo cipher db ip dest fuel rest
      (c :: r.1, r.2)

/-- `detokenize_form_data` from `tokenizer/icap_server.py`: substitute every
token match whose lookup succeeds, leave misses verbatim.  Also returns the
audit events written by `log_request`. -/
def detokenize_form_data (cipher : Cipher) (db : Vault) (ip dest : String)
    (form_data : String) : String × List AuditEvent :=
  let r := subFormTokensGo cipher db ip dest form_data.data.length form_data.data
  (String.mk r.1, r.2)

/-- The field names of `detokenize_json`'s redundancy pass. -/
def FIELD_KEYS : List String := ["card_number", "cardNumber", "pan", "creditCard"]

/-- Python `key in d` / `d[key]` on the decoded object (keys are unique). -/
def objLookup (kvs : List (String × Json)) (k : String) : Option Json :=
  (kvs.find? (fun kv => kv.1 == k)).map (fun kv => kv.2)

/-- Python `d[key] = v` for a key already present: keep position, replace
the value. -/
def objSet (kvs : List (String × Json)) (k : String) (v : Json) :
    List (String × Json) :=
  kvs.map (fun kv => if kv.1 == k then (kv.1, v) else kv)

/-- One iteration of `detokenize_json`'s named-field loop: if the key maps
to a string that starts with `tok_` and was not already seen by the regex
pass, look it up; on a hit rewrite the field, re-dump the whole object and
log a `detokenize` event.  State: current fields, current `modified_json`
string, events so far. -/
def fieldFixStep (cipher : Cipher) (db : Vault) (ip dest : String)
    (found : List String)
    (st : List (String × Json) × String × List AuditEvent) (key : String) :
    List (String × Json) × String × List AuditEvent :=
  match objLookup st.1 key with
  | some (.str v) =>
    if v.startsWith ("tok_") && !(found.contains v) then
      match retrieve_card cipher db v with
      | some card =>
        let kvs2 := objSet st.1 key (.str card)
        (kvs2, dumps (.obj kvs2),
          st.2.2 ++ [{ token := v, request_type := "detokenize",
                       source_ip := ip, destination_url := dest,
                       response_status := 200 }])
      | none => st
    else st
  | _ => st

/-- `detokenize_json` from `tokenizer/icap_server.py`: parse, re-serialize
canonically, substitute quoted tokens by regex, re-parse, run the
named-field redundancy pass on dicts, and return the final string together
with the audit events.  A `json.JSONDecodeError` on the input returns the
input unchanged; any later internal error (modelled: the re-parse of the
substituted text failing) also returns the original input string. -/
def detokenize_json (cipher : Cipher) (db : Vault) (ip dest : String)
    (json_str : String) : String × List AuditEvent :=
  match json_loads json_str with
  | none => (json_str, [])
  | some data =>
    let text := dumps data
    let sub := subJsonTokens cipher db ip dest text.data
    let subbed := String.mk sub.1
    match json_loads subbed with
    | none => (json_str, sub.2.2)
    | some md =>
      match md with
      | .obj kvs =>
        let fin := FIELD_KEYS.foldl (fieldFixStep cipher db ip dest sub.2.1)
          (kvs, subbed, [])
        (fin.2.1, sub.2.2 ++ fin.2.2)
      | _ => (subbed, sub.2.2)

/-- Does the second list start with the first? -/
def startsWithChars : List Char → List Char → Bool
  | [], _ => true
  | _ :: _, [] => false
  | a :: as, b :: bs => a == b && startsWithChars as bs

/-- Does the second list contain the first as a contiguous subsequence? -/
def containsSeq (needle : List Char) : List Char → Bool
  | [] => needle.isEmpty
  | c :: rest => startsWithChars needle (c :: rest) || containsSeq needle rest

/-- Python `needle in haystack` on strings. -/
def containsSub (needle hay : String) : Bool :=
  containsSeq needle.data hay.data

/-- The body-processing dispatch of `reqmod_REQMOD`: JSON content types go
to `detokenize_json`, form-urlencoded to `detokenize_form_data`, anything
else is tried as JSON and falls back to the form scan.  `ct` is the
lowercased Content-Type. -/
def processBody (cipher : Cipher) (db : Vault) (ip dest ct body : String) :
    String × List AuditEvent :=
  if containsSub ("application/json") ct then
    detokenize_json cipher db ip dest body
  else if containsSub ("application/x-www-form-urlencoded") ct then
    detokenize_form_data cipher db ip dest body
  else
    match json_loads body with
    | some _ => detokenize_json cipher db ip dest body
    | none => detokenize_form_data cipher db ip dest body

/-- UTF-8 byte length of one character (Python `len(s.encode('utf-8'))`
per character). -/
def utf8SizeNat (c : Char) : Nat :=
  if c.toNat ≤ 127 then 1
  else if c.toNat ≤ 2047 then 2
  else if c.toNat ≤ 65535 then 3
  else 4

/-- Byte length of the UTF-8 encoding of a string, as sent on the wire. -/
def utf8Len (s : String) : Nat :=
  s.data.foldl (fun acc c => acc + utf8SizeNat c) 0

/-- The observable outcome of one REQMOD transaction: the ICAP status, the
`Content-Length` value the handler emits on the rewritten HTTP headers
(`none` on 204), and the byte length of the body bytes written on the wire. -/
structure IcapOutcome where
  status : Nat
  contentLength : Option Nat
  wireBodyBytes : Nat
deriving Repr, DecidableEq

/-- `reqmod_REQMOD` after the body has been read (non-empty body present):
process it; if unchanged, answer `204 No Content`; otherwise answer `200`
with `Content-Length` set to `str(len(modified_body))` — Python's *character*
count — while the body is chunked as `modified_body.encode('utf-8')`. -/
def reqmod_REQMOD (cipher : Cipher) (db : Vault) (ip dest ct body : String) :
    IcapOutcome × List AuditEvent :=
  let r := processBody cipher db ip dest ct body
  if r.1 == body then
    ({ status := 204, contentLength := none, wireBodyBytes := 0 }, r.2)
  else
    ({ status := 200, contentLength := some r.1.length,
       wireBodyBytes := utf8Len r.1 }, r.2)

/-- Does any position of the list start a quoted-token match?  (Token-free
bodies are those for which this scan is `false`.) -/
def hasQuotedTokenGo : Nat → List Char → Bool
  | 0, _ => false
  | _ + 1, [] => false
  | fuel + 1, c :: rest =>
      (matchQuotedToken (c :: rest)).isSome || hasQuotedTokenGo fuel rest

def hasQuotedToken (s : String) : Bool :=
  hasQuotedTokenGo s.data.length s.data

/-- Does any position of the list start a bare-token match? -/
def hasFormTokenGo : Nat → List Char → Bool
  | 0, _ => false
  | _ + 1, [] => false
  | fuel + 1, c :: rest =>
      (matchFormToken (c :: rest)).isSome || hasFormTokenGo fuel rest

def hasFormToken (s : String) : Bool :=
  hasFormTokenGo s.data.length s.data

/-- Key `k` of the decoded object does not hold a `tok_`-prefixed string,
so the named-field pass cannot touch it. -/
def fieldNoTok (kvs : List (String × Json)) (k : String) : Bool :=
  match objLookup kvs k with
  | some (.str v) => !(v.startsWith ("tok_"))
  | _ => true

/-- `fieldNoTok` lifted to an arbitrary decoded value (non-objects skip the
named-field pass altogether). -/
def jsonFieldNoTok (j : Json) (k : String) : Bool :=
  match j with
  | .obj kvs => fieldNoTok kvs k
  | _ => true

/-- The internal-error path of `detokenize_json` modelled observably: the
input parsed, but the substituted text no longer does (the generic
`except Exception` branch of the source). -/
def jsonInternalErr (cipher : Cipher) (db : Vault) (ip dest s : String) : Bool :=
  match json_loads s with
  | none => false
  | some j =>
      (json_loads (String.mk (subJsonTokens cipher db ip dest (dumps j).data).1)).isNone

/-- A well-shaped token (`tok_` plus 43 class characters), used in
witnesses and counterexamples. -/
def tokA : String := "tok_AAAAAAAAAAAAAAAAAAAAAAAAAAAAAAAAAAAAAAAAAAA"

/-- A vault row binding `tokA` to a PAN, used in concrete evaluations. -/
def wireRecord : CardRecord :=
  { token := tokA, card_number_encrypted := "4111111111111111",
    last_four_digits := "1111", first_six_digits := "411111",
    card_type := "visa", expiry_month := 12, expiry_year := 2025,
    active := true, updated_at := 0 }

/-- A cipher whose decryption always fails (Fernet raising on an
authentication-tag mismatch, caught inside `retrieve_card`), used to
exercise the decryption-failure path concretely. -/
def failCipher : Cipher := { enc := fun _ s => s, dec := fun _ => none }

/-! ## Theorems

Everything below settles the claims against the definitions above. -/

/-! ### Claim C5: the Luhn validator agrees with the specified algorithm -/

lemma digitsSum_small {m : Nat} (h : m < 10) : digitsSum m = m := by
  cases m with
  | zero => rfl
  | succ k => simp [digitsSum, digitsSumGo, h]

lemma spec_reduce (d : Nat) :
    (if 10 ≤ 2 * d then digitsSum (2 * d) else 2 * d) = digitsSum (2 * d) := by
  split
  · rfl
  · next h => exact (digitsSum_small (by omega)).symm

lemma everyOther_cons (a : Nat) (l : List Nat) :
    everyOther (a :: l) = a :: everyOther l.tail := by
  cases l <;> rfl

lemma specLuhnGo_eq (l : List Nat) :
    specLuhnGo l false
        = (everyOther l).sum
          + ((everyOther l.tail).map (fun d => digitsSum (2 * d))).sum
  ∧ specLuhnGo l true
        = ((everyOther l).map (fun d => digitsSum (2 * d))).sum
          + (everyOther l.tail).sum := by
  induction l with
  | nil => simp [specLuhnGo, everyOther]
  | cons d rest ih =>
    constructor
    · show d + specLuhnGo rest true = _
      rw [ih.2, everyOther_cons]
      simp only [List.tail_cons, List.sum_cons]
      omega
    · show (if 10 ≤ 2 * d then digitsSum (2 * d) else 2 * d)
          + specLuhnGo rest false = _
      rw [spec_reduce, ih.1, everyOther_cons]
      simp only [List.tail_cons, List.map_cons, List.sum_cons]
      omega

lemma luhnChecksum_eq_spec (l : List Nat) : luhnChecksum l = specLuhnSum l := by
  unfold luhnChecksum specLuhnSum
  rw [(specLuhnGo_eq l.reverse).1]

/-- C5 (confirmed): for every digits-only string `d`, the code's
`luhn_check d` returns `true` exactly when the specification's mod-10
checksum — sum from the rightmost digit, doubling every second digit from
the second-from-right onward and reducing doubled values ≥ 10 by digit-sum
— is congruent to 0 mod 10.  In particular every 16-digit string with zero
residue is accepted and every one with nonzero residue is rejected. -/
theorem luhn_check_matches_spec_mod10 (d : String)
    (h : d.data.all Char.isDigit = true) :
    luhn_check d = true ↔ specLuhnSum (d.data.map digitVal) % 10 = 0 := by
  have hcs := luhnChecksum_eq_spec (d.data.map digitVal)
  simp [luhn_check, hcs]

/-- Witness for C5 at the spec's own example PAN `4532015112830366`. -/
theorem luhn_check_matches_spec_mod10_witness :
    (("4532015112830366" : String).data.all Char.isDigit = true)
  ∧ (luhn_check ("4532015112830366") = true
      ↔ specLuhnSum (("4532015112830366" : String).data.map digitVal) % 10 = 0) :=
  ⟨by decide, luhn_check_matches_spec_mod10 ("4532015112830366") (by decide)⟩

/-! ### Claim C6: brand classification -/

lemma matchVisa_iff (l : List Char) (h : l.all Char.isDigit = true) :
    matchVisa l = true
      ↔ l.head? = some '4' ∧ (l.length = 13 ∨ l.length = 16) := by
  cases l with
  | nil => simp [matchVisa]
  | cons c rest =>
    simp only [List.all_cons, Bool.and_eq_true] at h
    simp only [matchVisa, h.2, Bool.and_true, Bool.and_eq_true, Bool.or_eq_true,
      beq_iff_eq, List.head?_cons, Option.some.injEq, List.length_cons]
    constructor
    · rintro ⟨h1, h2⟩
      exact ⟨h1, by omega⟩
    · rintro ⟨h1, h2⟩
      exact ⟨h1, by omega⟩

lemma matchMastercard_iff (l : List Char) (h : l.all Char.isDigit = true) :
    matchMastercard l = true
      ↔ (l.take 2 = ['5', '1'] ∨ l.take 2 = ['5', '2'] ∨ l.take 2 = ['5', '3']
          ∨ l.take 2 = ['5', '4'] ∨ l.take 2 = ['5', '5']) ∧ l.length = 16 := by
  match l with
  | [] => simp [matchMastercard]
  | [c] => simp [matchMastercard]
  | c1 :: c2 :: rest =>
    simp only [List.all_cons, Bool.and_eq_true] at h
    simp only [matchMastercard, h.2.2, Bool.and_true, Bool.and_eq_true,
      Bool.or_eq_true, beq_iff_eq, List.take_succ_cons, List.take_zero,
      List.cons.injEq, and_true, List.length_cons]
    constructor <;> rintro ⟨ha, hb⟩ <;> exact ⟨by tauto, by omega⟩

lemma matchAmex_iff (l : List Char) (h : l.all Char.isDigit = true) :
    matchAmex l = true
      ↔ (l.take 2 = ['3', '4'] ∨ l.take 2 = ['3', '7']) ∧ l.length = 15 := by
  match l with
  | [] => simp [matchAmex]
  | [c] => simp [matchAmex]
  | c1 :: c2 :: rest =>
    simp only [List.all_cons, Bool.and_eq_true] at h
    simp only [matchAmex, h.2.2, Bool.and_true, Bool.and_eq_true,
      Bool.or_eq_true, beq_iff_eq, List.take_succ_cons, List.take_zero,
      List.cons.injEq, and_true, List.length_cons]
    constructor <;> rintro ⟨ha, hb⟩ <;> exact ⟨by tauto, by omega⟩

lemma matchDiscover_iff (l : List Char) (h : l.all Char.isDigit = true) :
    matchDiscover l = true
      ↔ (l.take 4 = ['6', '0', '1', '1'] ∨ l.take 2 = ['6', '5'])
          ∧ l.length = 16 := by
  match l with
  | [] => simp [matchDiscover]
  | [c] => simp [matchDiscover]
  | [c1, c2] => simp [matchDiscover]
  | [c1, c2, c3] => simp [matchDiscover]
  | c1 :: c2 :: c3 :: c4 :: rest =>
    simp only [List.all_cons, Bool.and_eq_true] at h
    have h3 : c3.isDigit = true := h.2.2.1
    have h4 : c4.isDigit = true := h.2.2.2.1
    simp only [matchDiscover, h.2.2.2.2, h3, h4, Bool.and_true, Bool.and_eq_true,
      Bool.or_eq_true, beq_iff_eq, List.take_succ_cons, List.take_zero,
      List.cons.injEq, and_true, List.length_cons]
    constructor <;> rintro ⟨ha, hb⟩ <;> exact ⟨by tauto, by omega⟩

/-- C6 (counterexample to the claim as stated): the claim classifies a
19-digit PAN with prefix 4 as visa, but `detect_card_type` returns
`unknown` for it — the visa regex only allows 13 or 16 digits. -/
theorem visa19_classified_unknown :
    detect_card_type ("4000000000000000000") = "unknown"
      ∧ claimBrand (cleanDigits ("4000000000000000000")) = "visa"
      ∧ ("unknown" : String) ≠ "visa" := by
  refine ⟨by decide, by decide, by decide⟩

/-- C6 (amended): for every digits-only PAN, `detect_card_type` follows the
claim's prefix rules with visa restricted to lengths 13 and 16 (the code's
visa regex does not accept 19 digits); all other rules are as claimed. -/
theorem detect_card_type_matches_amended_rules (s : String)
    (h : s.data.all Char.isDigit = true) :
    detect_card_type s = amendedBrand s.data := by
  have hclean : cleanDigits s = s.data := by
    unfold cleanDigits
    exact List.filter_eq_self.mpr (by simpa [List.all_eq_true] using h)
  unfold detect_card_type amendedBrand
  rw [hclean]
  simp only [matchVisa_iff _ h, matchMastercard_iff _ h, matchAmex_iff _ h,
    matchDiscover_iff _ h]

/-- Witness for the amended C6 at a concrete 16-digit visa PAN. -/
theorem detect_card_type_matches_amended_rules_witness :
    (("4111111111111111" : String).data.all Char.isDigit = true)
      ∧ detect_card_type ("4111111111111111")
          = amendedBrand (("4111111111111111" : String).data) :=
  ⟨by decide, detect_card_type_matches_amended_rules ("4111111111111111") (by decide)⟩

/-! ### Vault lemmas shared by several claims -/

/-- A concrete cipher used only to instantiate witnesses and
counterexamples; the general theorems are parametric in the cipher. -/
lemma store_card_fresh (cipher : Cipher) (nonce now : Nat)
    (card token : String) (db : Vault)
    (hfresh : ∀ r ∈ db, r.token ≠ token) :
    store_card cipher nonce now card token db
      = db ++ [{ token := token,
                 card_number_encrypted := cipher.enc nonce card,
                 last_four_digits := String.mk (card.data.drop (card.length - 4)),
                 first_six_digits := String.mk (card.data.take 6),
                 card_type := detect_card_type card,
                 expiry_month := 12, expiry_year := 2025,
                 active := true, updated_at := now }] := by
  have hany : db.any (fun r => r.token == token) = false := by
    simp only [List.any_eq_false]
    intro r hr
    simp [hfresh r hr]
  unfold store_card
  simp [hany]

lemma fresh_append (db : Vault) (rec : CardRecord) (t : String)
    (hdb : ∀ r ∈ db, r.token ≠ t) (hrec : rec.token ≠ t) :
    ∀ r ∈ db ++ [rec], r.token ≠ t := by
  intro r hr
  rcases List.mem_append.mp hr with hr | hr
  · exact hdb r hr
  · simp only [List.mem_singleton] at hr
    subst hr
    exact hrec

lemma find?_fresh_none (db : Vault) (token : String)
    (hfresh : ∀ r ∈ db, r.token ≠ token) :
    db.find? (fun r => r.token == token && r.active) = none := by
  rw [List.find?_eq_none]
  intro r hr
  simp [hfresh r hr]

/-! ### Claim C2: tokenize-then-detokenize round-trip -/

/-- C2 (confirmed): for every PAN the scanner accepts, storing its
digits-only canonical form under a fresh token and then retrieving that
token returns exactly the canonical digits, for any cipher satisfying the
Fernet round-trip property and any prior vault contents not containing the
token. -/
theorem store_then_retrieve_roundtrip (cipher : Cipher)
    (hrt : ∀ nonce s, cipher.dec (cipher.enc nonce s) = some s)
    (pan token : String) (nonce now : Nat) (db : Vault)
    (hfresh : ∀ r ∈ db, r.token ≠ token)
    (hacc : scannerAccepts pan = true) :
    retrieve_card cipher
        (store_card cipher nonce now (canonicalDigits pan) token db) token
      = some (canonicalDigits pan) := by
  rw [store_card_fresh cipher nonce now (canonicalDigits pan) token db hfresh]
  unfold retrieve_card
  rw [List.find?_append, find?_fresh_none db token hfresh]
  simp [hrt]

/-- Witness for C2 at a concrete separator-bearing visa PAN. -/
theorem store_then_retrieve_roundtrip_witness :
    (∀ nonce s, testCipher.dec (testCipher.enc nonce s) = some s)
  ∧ (scannerAccepts ("4111-1111-1111-1111") = true)
  ∧ retrieve_card testCipher
        (store_card testCipher 0 0
          (canonicalDigits ("4111-1111-1111-1111")) ("tok_w2") []) ("tok_w2")
      = some (canonicalDigits ("4111-1111-1111-1111")) :=
  ⟨fun _ _ => rfl, by decide,
    store_then_retrieve_roundtrip testCipher (fun _ _ => rfl)
      ("4111-1111-1111-1111") ("tok_w2") 0 0 [] (by simp) (by decide)⟩

/-! ### Claim C7: rejected candidates are left verbatim with no vault write -/

/-- C7 (confirmed): when a candidate's digits-only form fails the length
window [13, 19] or the Luhn check, `replace_card` returns the match
verbatim and leaves both the vault and the `tokens_map` untouched. -/
theorem rejected_candidate_left_verbatim (cipher : Cipher) (nonce now : Nat)
    (freshToken potential_card : String) (db : Vault)
    (tm : List (String × String))
    (h : panAccepted (canonicalDigits potential_card) = false) :
    replace_card cipher nonce now freshToken potential_card db tm
      = { out := potential_card, vault := db, tokens_map := tm } := by
  unfold replace_card
  simp [h]

/-- Witness for C7 at the spec's own Luhn-invalid digit run
`4532015112830367`. -/
theorem rejected_candidate_left_verbatim_witness :
    (panAccepted (canonicalDigits ("4532015112830367")) = false)
  ∧ replace_card testCipher 0 0 ("tok_a") ("4532015112830367") [] []
      = { out := "4532015112830367", vault := [], tokens_map := [] } :=
  ⟨by decide,
    rejected_candidate_left_verbatim testCipher 0 0 ("tok_a")
      ("4532015112830367") [] [] (by decide)⟩

/-! ### Claim C1: tokenization is *not* idempotent at the PAN level -/

/-- C1 (counterexample to the claim as stated): tokenizing the same PAN
twice returns two distinct tokens and leaves two active vault records for
that PAN, not one. -/
theorem tokenize_same_pan_twice_distinct_tokens :
    (replace_card testCipher 0 0 ("tok_a2") ("4111111111111111") [] []).out
        = "tok_a2"
  ∧ (replace_card testCipher 1 1 ("tok_b2") ("4111111111111111")
        (replace_card testCipher 0 0 ("tok_a2") ("4111111111111111") [] []).vault
        (replace_card testCipher 0 0 ("tok_a2") ("4111111111111111") [] []).tokens_map).out
        = "tok_b2"
  ∧ ("tok_a2" : String) ≠ "tok_b2"
  ∧ ((replace_card testCipher 1 1 ("tok_b2") ("4111111111111111")
        (replace_card testCipher 0 0 ("tok_a2") ("4111111111111111") [] []).vault
        (replace_card testCipher 0 0 ("tok_a2") ("4111111111111111") [] []).tokens_map).vault.countP
          (activeRecordFor testCipher ("4111111111111111")) = 2) := by
  refine ⟨by decide, by decide, by decide, by decide⟩

/-- C1 (amended): each call of the tokenize path on an accepted PAN stores a
brand-new record under the freshly generated token and returns that fresh
token; two calls on the same PAN with distinct fresh tokens therefore return
distinct tokens and add two active records for that PAN. -/
theorem replace_card_fresh_token_per_call (cipher : Cipher)
    (hrt : ∀ nonce s, cipher.dec (cipher.enc nonce s) = some s)
    (pan t1 t2 : String) (n1 n2 m1 m2 : Nat) (db : Vault)
    (tm : List (String × String))
    (hacc : panAccepted (canonicalDigits pan) = true)
    (hne : t1 ≠ t2)
    (h1 : ∀ r ∈ db, r.token ≠ t1)
    (h2 : ∀ r ∈ db, r.token ≠ t2) :
    (replace_card cipher n1 m1 t1 pan db tm).out = t1
  ∧ (replace_card cipher n2 m2 t2 pan
        (replace_card cipher n1 m1 t1 pan db tm).vault
        (replace_card cipher n1 m1 t1 pan db tm).tokens_map).out = t2
  ∧ ((replace_card cipher n2 m2 t2 pan
        (replace_card cipher n1 m1 t1 pan db tm).vault
        (replace_card cipher n1 m1 t1 pan db tm).tokens_map).vault.countP
          (activeRecordFor cipher (canonicalDigits pan))
        = db.countP (activeRecordFor cipher (canonicalDigits pan)) + 2) := by
  unfold replace_card
  simp only [hacc, if_true]
  rw [store_card_fresh cipher n1 m1 (canonicalDigits pan) t1 db h1,
      store_card_fresh cipher n2 m2 (canonicalDigits pan) t2 _
        (fresh_append db _ t2 h2 hne)]
  refine ⟨trivial, trivial, ?_⟩
  simp only [List.countP_append]
  have hrec : ∀ m u k, List.countP (activeRecordFor cipher (canonicalDigits pan))
      [{ token := k,
         card_number_encrypted := cipher.enc m (canonicalDigits pan),
         last_four_digits :=
           String.mk ((canonicalDigits pan).data.drop ((canonicalDigits pan).length - 4)),
         first_six_digits := String.mk ((canonicalDigits pan).data.take 6),
         card_type := detect_card_type (canonicalDigits pan),
         expiry_month := 12, expiry_year := 2025,
         active := true, updated_at := u }] = 1 := by
    intro m u k
    simp [List.countP_cons, activeRecordFor, hrt]
  rw [hrec n1 m1 t1, hrec n2 m2 t2]

/-- Witness for the amended C1 at a concrete PAN and two fresh tokens. -/
theorem replace_card_fresh_token_per_call_witness :
    (panAccepted (canonicalDigits ("4111111111111111")) = true)
  ∧ (("tok_a3" : String) ≠ "tok_b3")
  ∧ (replace_card testCipher 0 0 ("tok_a3") ("4111111111111111") [] []).out
        = "tok_a3"
  ∧ (replace_card testCipher 1 1 ("tok_b3") ("4111111111111111")
        (replace_card testCipher 0 0 ("tok_a3") ("4111111111111111") [] []).vault
        (replace_card testCipher 0 0 ("tok_a3") ("4111111111111111") [] []).tokens_map).out
        = "tok_b3" := by
  have h := replace_card_fresh_token_per_call testCipher (fun _ _ => rfl)
    ("4111111111111111") ("tok_a3") ("tok_b3") 0 1 0 1 [] []
    (by decide) (by decide) (by simp) (by simp)
  exact ⟨by decide, by decide, h.1, h.2.1⟩

/-! ### Claim C9: revocation via the management API -/

/-- C9 (code bug): the first revocation of an existing active token
succeeds with 200 and flips the record inactive, but a second revocation of
the *same, still-present* token returns 404 "Token not found": MySQLdb's
`rowcount` counts rows the `UPDATE` changed, which is 0 once the record is
already inactive, contradicting the spec's "idempotent; `UnknownToken` only
if never existed". -/
theorem revoke_revoked_returns_404 :
    (revoke_token [demoRecord] ("tok_r")).2 = 200
  ∧ ((revoke_token [demoRecord] ("tok_r")).1.map CardRecord.active = [false])
  ∧ ((revoke_token [demoRecord] ("tok_r")).1.any
        (fun r => r.token == "tok_r") = true)
  ∧ (revoke_token (revoke_token [demoRecord] ("tok_r")).1 ("tok_r")).2 = 404 := by
  refine ⟨by decide, by decide, by decide, by decide⟩

/-! ### Token-substitution lemmas -/

lemma matchQuotedToken_some {cs : List Char} {tok : String} {after : List Char}
    (h : matchQuotedToken cs = some (tok, after)) :
    cs = '"' :: tok.data ++ '"' :: after := by
  unfold matchQuotedToken at h
  split at h
  next rest =>
    split at h
    next rest2 hdrop =>
      dsimp only [] at h
      split at h
      next hc =>
        simp only [Option.some.injEq, Prod.mk.injEq] at h
        obtain ⟨rfl, rfl⟩ := h
        have hdata : (String.mk ('t' :: 'o' :: 'k' :: '_' :: rest.take 43)).data
            = 't' :: 'o' :: 'k' :: '_' :: rest.take 43 := rfl
        rw [hdata]
        simp only [List.cons_append, List.cons.injEq, true_and]
        conv_lhs => rw [← List.take_append_drop 43 rest]
        rw [hdrop]
      next => exact absurd h (by simp)
    next => exact absurd h (by simp)
  next => exact absurd h (by simp)

lemma matchFormToken_some {cs : List Char} {tok : String} {after : List Char}
    (h : matchFormToken cs = some (tok, after)) :
    cs = tok.data ++ after := by
  unfold matchFormToken at h
  split at h
  next rest =>
    dsimp only [] at h
    split at h
    next hc =>
      simp only [Option.some.injEq, Prod.mk.injEq] at h
      obtain ⟨rfl, rfl⟩ := h
      have hdata : (String.mk ('t' :: 'o' :: 'k' :: '_' :: rest.take 43)).data
          = 't' :: 'o' :: 'k' :: '_' :: rest.take 43 := rfl
      rw [hdata]
      simp only [List.cons_append, List.cons.injEq, true_and]
      exact (List.take_append_drop 43 rest).symm
    next => exact absurd h (by simp)
  next => exact absurd h (by simp)

lemma subJsonTokensGo_miss (cipher : Cipher) (db : Vault) (ip dest : String)
    (hmiss : ∀ t, retrieve_card cipher db t = none) :
    ∀ fuel cs, (subJsonTokensGo cipher db ip dest fuel cs).1 = cs
      ∧ (subJsonTokensGo cipher db ip dest fuel cs).2.2 = [] := by
  intro fuel
  induction fuel with
  | zero => exact fun cs => ⟨rfl, rfl⟩
  | succ fuel ih =>
    intro cs
    match cs with
    | [] => exact ⟨rfl, rfl⟩
    | c :: rest =>
      rcases hm : matchQuotedToken (c :: rest) with _ | ⟨tok, after⟩
      · simpa only [subJsonTokensGo, hm] using ⟨by rw [(ih rest).1], (ih rest).2⟩
      · have hcs := matchQuotedToken_some hm
        simp only [subJsonTokensGo, hm, hmiss tok]
        refine ⟨?_, (ih after).2⟩
        rw [(ih after).1, hcs]

lemma subFormTokensGo_miss (cipher : Cipher) (db : Vault) (ip dest : String)
    (hmiss : ∀ t, retrieve_card cipher db t = none) :
    ∀ fuel cs, (subFormTokensGo cipher db ip dest fuel cs).1 = cs
      ∧ (subFormTokensGo cipher db ip dest fuel cs).2 = [] := by
  intro fuel
  induction fuel with
  | zero => exact fun cs => ⟨rfl, rfl⟩
  | succ fuel ih =>
    intro cs
    match cs with
    | [] => exact ⟨rfl, rfl⟩
    | c :: rest =>
      rcases hm : matchFormToken (c :: rest) with _ | ⟨tok, after⟩
      · simpa only [subFormTokensGo, hm] using ⟨by rw [(ih rest).1], (ih rest).2⟩
      · have hcs := matchFormToken_some hm
        simp only [subFormTokensGo, hm, hmiss tok]
        refine ⟨?_, (ih after).2⟩
        rw [(ih after).1, hcs]

lemma subJsonTokensGo_nomatch (cipher : Cipher) (db : Vault) (ip dest : String) :
    ∀ fuel cs, hasQuotedTokenGo fuel cs = false →
      subJsonTokensGo cipher db ip dest fuel cs = (cs, [], []) := by
  intro fuel
  induction fuel with
  | zero => exact fun cs _ => rfl
  | succ fuel ih =>
    intro cs h
    match cs with
    | [] => rfl
    | c :: rest =>
      simp only [hasQuotedTokenGo, Bool.or_eq_false_iff] at h
      rcases hm : matchQuotedToken (c :: rest) with _ | ⟨tok, after⟩
      · simp only [subJsonTokensGo, hm, ih rest h.2]
      · rw [hm] at h
        exact absurd h.1 (by simp)

lemma subFormTokensGo_nomatch (cipher : Cipher) (db : Vault) (ip dest : String) :
    ∀ fuel cs, hasFormTokenGo fuel cs = false →
      subFormTokensGo cipher db ip dest fuel cs = (cs, []) := by
  intro fuel
  induction fuel with
  | zero => exact fun cs _ => rfl
  | succ fuel ih =>
    intro cs h
    match cs with
    | [] => rfl
    | c :: rest =>
      simp only [hasFormTokenGo, Bool.or_eq_false_iff] at h
      rcases hm : matchFormToken (c :: rest) with _ | ⟨tok, after⟩
      · simp only [subFormTokensGo, hm, ih rest h.2]
      · rw [hm] at h
        exact absurd h.1 (by simp)

lemma foldl_fieldFix_miss (cipher : Cipher) (db : Vault) (ip dest : String)
    (found : List String)
    (hmiss : ∀ t, retrieve_card cipher db t = none) :
    ∀ keys st,
      List.foldl (fieldFixStep cipher db ip dest found) st keys = st := by
  intro keys
  induction keys with
  | nil => exact fun st => rfl
  | cons k ks ih =>
    intro st
    have hstep : fieldFixStep cipher db ip dest found st k = st := by
      unfold fieldFixStep
      rcases hl : objLookup st.1 k with _ | j
      · rfl
      · cases j <;> simp only []
        next v =>
          split
          · rw [hmiss v]
          · rfl
    rw [List.foldl_cons, hstep, ih st]

lemma foldl_fieldFix_notok (cipher : Cipher) (db : Vault) (ip dest : String)
    (found : List String) :
    ∀ keys kvs cur evts, (∀ k ∈ keys, fieldNoTok kvs k = true) →
      List.foldl (fieldFixStep cipher db ip dest found) (kvs, cur, evts) keys
        = (kvs, cur, evts) := by
  intro keys
  induction keys with
  | nil => exact fun kvs cur evts _ => rfl
  | cons k ks ih =>
    intro kvs cur evts h
    have hk := h k (by simp)
    have hstep : fieldFixStep cipher db ip dest found (kvs, cur, evts) k
        = (kvs, cur, evts) := by
      unfold fieldFixStep
      unfold fieldNoTok at hk
      rcases hl : objLookup kvs k with _ | j
      · rfl
      · rw [hl] at hk
        cases j <;> simp only []
        next v =>
          simp only [Bool.not_eq_true'] at hk
          simp [hk]
    rw [List.foldl_cons, hstep]
    exact ih kvs cur evts (fun k2 hk2 => h k2 (by simp [hk2]))

lemma string_mk_data : ∀ s : String, String.mk s.data = s
  | ⟨_⟩ => rfl

/-! ### Claim C10: totality and failure semantics of `detokenize_json` -/

/-- C10 (counterexample to the claim as stated): a decryption failure does
*not* make `detokenize_json` return the original input unchanged.  With a
vault holding an active record for the token but a cipher whose decryption
fails, the lookup performed while processing the body fails (first two
conjuncts), the token is left verbatim — yet the output is the canonical
re-serialization of the body, which differs from the non-canonical
original. -/
theorem decrypt_failure_output_not_original :
    retrieve_card failCipher [wireRecord] tokA = none
  ∧ (List.find? (fun r => r.token == tokA && r.active) [wireRecord]).isSome
      = true
  ∧ (detokenize_json failCipher [wireRecord] ("ip") ("d")
        ("\x7b\"a\" : \"tok_AAAAAAAAAAAAAAAAAAAAAAAAAAAAAAAAAAAAAAAAAAA\"\x7d")).1
      = "\x7b\"a\": \"tok_AAAAAAAAAAAAAAAAAAAAAAAAAAAAAAAAAAAAAAAAAAA\"\x7d"
  ∧ ("\x7b\"a\": \"tok_AAAAAAAAAAAAAAAAAAAAAAAAAAAAAAAAAAAAAAAAAAA\"\x7d" : String)
      ≠ "\x7b\"a\" : \"tok_AAAAAAAAAAAAAAAAAAAAAAAAAAAAAAAAAAAAAAAAAAA\"\x7d" := by
  refine ⟨by decide, by decide, by decide, by decide⟩

/-- C10 (amended): `detokenize_json` is total, and returns the original
input string unchanged when the input is not parseable as JSON or when the
internal re-parse of the substituted text fails (the exception branches of
the source).  A vault or decryption failure, however, is caught inside
`retrieve_card` and is not such an error: it only leaves the affected token
verbatim, and a parseable body still comes out as the original string or
its canonical re-serialization. -/
theorem detokenize_json_total_or_canonical (cipher : Cipher) (db : Vault)
    (ip dest : String) :
    (∀ s : String,
        json_loads s = none ∨ jsonInternalErr cipher db ip dest s = true →
        (detokenize_json cipher db ip dest s).1 = s)
  ∧ ((∀ t, retrieve_card cipher db t = none) →
        ∀ (s : String) (j : Json), json_loads s = some j →
          (detokenize_json cipher db ip dest s).1 = s
        ∨ (detokenize_json cipher db ip dest s).1 = dumps j) := by
  constructor
  · intro s h
    unfold detokenize_json
    rcases hl : json_loads s with _ | j
    · rfl
    · rcases h with h | h
      · rw [hl] at h
        exact absurd h (by simp)
      · unfold jsonInternalErr at h
        rw [hl] at h
        simp only [Option.isNone_iff_eq_none] at h
        dsimp only []
        simp only [h]
  · intro hmiss s j hj
    unfold detokenize_json
    simp only [hj]
    obtain ⟨ha, hb⟩ := subJsonTokensGo_miss cipher db ip dest hmiss
      (dumps j).data.length (dumps j).data
    have ha' : (subJsonTokens cipher db ip dest (dumps j).data).1
        = (dumps j).data := ha
    rw [ha', string_mk_data]
    rcases hr : json_loads (dumps j) with _ | md
    · simp only [hr]
      exact Or.inl trivial
    · simp only [hr]
      cases md <;> simp only []
      case obj kvs =>
        rw [foldl_fieldFix_miss cipher db ip dest _ hmiss]
        exact Or.inr rfl
      all_goals exact Or.inr trivial

/-- Witness for the amended C10: an unparseable body passes through
unchanged, and under the decryption-failing cipher a parseable body comes
out as the original or its canonical form. -/
theorem detokenize_json_total_or_canonical_witness :
    (json_loads ("not json") = none
        ∨ jsonInternalErr failCipher [wireRecord] ("ip") ("d") ("not json")
            = true)
  ∧ (detokenize_json failCipher [wireRecord] ("ip") ("d") ("not json")).1
      = "not json"
  ∧ ((detokenize_json failCipher [wireRecord] ("ip") ("d")
        ("\x7b\"a\" : \"tok_AAAAAAAAAAAAAAAAAAAAAAAAAAAAAAAAAAAAAAAAAAA\"\x7d")).1
      = "\x7b\"a\" : \"tok_AAAAAAAAAAAAAAAAAAAAAAAAAAAAAAAAAAAAAAAAAAA\"\x7d"
    ∨ (detokenize_json failCipher [wireRecord] ("ip") ("d")
        ("\x7b\"a\" : \"tok_AAAAAAAAAAAAAAAAAAAAAAAAAAAAAAAAAAAAAAAAAAA\"\x7d")).1
      = dumps (Json.obj [("a", Json.str tokA)])) := by
  have h := detokenize_json_total_or_canonical failCipher [wireRecord]
    ("ip") ("d")
  have hmiss : ∀ t, retrieve_card failCipher [wireRecord] t = none := by
    intro t
    unfold retrieve_card
    rcases hf : List.find? (fun r => r.token == t && r.active) [wireRecord]
      with _ | r
    · rw [hf]
    · rw [hf]
      rfl
  exact ⟨Or.inl rfl, h.1 _ (Or.inl rfl), h.2 hmiss _ _ rfl⟩

/-! ### Claim C4: unknown tokens are left verbatim, but no `miss` event -/

/-- C4 (counterexample to the claim as stated): a body holding a well-shaped
token that is not in the vault passes through unchanged — but the audit
trail is empty: no event of kind `miss` (or any other kind) is written. -/
theorem unknown_token_no_miss_event :
    detokenize_json testCipher [] ("ip") ("d")
        ("\x7b\"a\": \"tok_AAAAAAAAAAAAAAAAAAAAAAAAAAAAAAAAAAAAAAAAAAA\"\x7d")
      = ("\x7b\"a\": \"tok_AAAAAAAAAAAAAAAAAAAAAAAAAAAAAAAAAAAAAAAAAAA\"\x7d",
         []) := by
  decide

/-- C4 (amended): every token whose vault lookup fails is left verbatim at
its site, and *no* audit event is written for it — the source only logs a
warning line; the `token_requests` table sees nothing.  Stated for a vault
on which every lookup misses: the regex pass is the identity with an empty
event list, and so are `detokenize_form_data` and the audit output of
`detokenize_json`. -/
theorem unknown_token_verbatim_no_audit (cipher : Cipher) (db : Vault)
    (ip dest : String)
    (hmiss : ∀ t, retrieve_card cipher db t = none) :
    (∀ cs : List Char, (subJsonTokens cipher db ip dest cs).1 = cs
        ∧ (subJsonTokens cipher db ip dest cs).2.2 = [])
  ∧ (∀ s : String, detokenize_form_data cipher db ip dest s = (s, []))
  ∧ (∀ s : String, (detokenize_json cipher db ip dest s).2 = []) := by
  have hjson := subJsonTokensGo_miss cipher db ip dest hmiss
  have hform := subFormTokensGo_miss cipher db ip dest hmiss
  refine ⟨fun cs => hjson cs.length cs, fun s => ?_, fun s => ?_⟩
  · unfold detokenize_form_data
    obtain ⟨ha, hb⟩ := hform s.data.length s.data
    dsimp only []
    rw [ha, hb, string_mk_data]
  · unfold detokenize_json
    rcases hl : json_loads s with _ | j
    · rfl
    · dsimp only []
      obtain ⟨ha, hb⟩ := hjson (dumps j).data.length (dumps j).data
      have ha' : (subJsonTokens cipher db ip dest (dumps j).data).1
          = (dumps j).data := ha
      have hb' : (subJsonTokens cipher db ip dest (dumps j).data).2.2 = [] := hb
      rw [ha', hb', string_mk_data]
      rcases hr : json_loads (dumps j) with _ | md
      · simp only [hr]
      · simp only [hr]
        cases md <;> simp only []
        next kvs =>
          rw [foldl_fieldFix_miss cipher db ip dest _ hmiss]
          rfl

/-- Witness for the amended C4: empty vault, concrete token-bearing inputs. -/
theorem unknown_token_verbatim_no_audit_witness :
    ((subJsonTokens testCipher [] ("ip") ("d")
        ("\"tok_AAAAAAAAAAAAAAAAAAAAAAAAAAAAAAAAAAAAAAAAAAA\"" : String).data).1
      = ("\"tok_AAAAAAAAAAAAAAAAAAAAAAAAAAAAAAAAAAAAAAAAAAA\"" : String).data)
  ∧ detokenize_form_data testCipher [] ("ip") ("d") tokA = (tokA, [])
  ∧ (detokenize_json testCipher [] ("ip") ("d")
        ("\x7b\"pan\": \"tok_x\"\x7d")).2 = [] := by
  have h := unknown_token_verbatim_no_audit testCipher [] ("ip") ("d")
    (fun t => rfl)
  exact ⟨(h.1 _).1, h.2.1 _, h.2.2 _⟩

/-! ### Claim C3: token-free bodies and byte-identity -/

/-- C3 (counterexample to the claim as stated): the JSON body
`\x7b"a":1\x7d` contains no PANs and no tokens, yet the adapter's output is
the canonical re-serialization `\x7b"a": 1\x7d` — not byte-identical — and
the service responds 200, not 204. -/
theorem json_reserialization_changes_tokenfree_body :
    (processBody testCipher [] ("ip") ("d") ("application/json")
        ("\x7b\"a\":1\x7d")).1 = "\x7b\"a\": 1\x7d"
  ∧ ("\x7b\"a\": 1\x7d" : String) ≠ "\x7b\"a\":1\x7d"
  ∧ (reqmod_REQMOD testCipher [] ("ip") ("d") ("application/json")
        ("\x7b\"a\":1\x7d")).1.status = 200 := by
  refine ⟨by decide, by decide, by decide⟩

/-- C3 (amended): for a body with no tokens (no 43-character token matches,
and no `tok_`-prefixed named fields after decoding), the form path is the
identity with no events; an unparseable body passes through unchanged on
the JSON path too; a parseable body comes out as either the original string
or its canonical `json.dumps` re-serialization — byte-identity therefore
holds exactly when the body equals its canonical form; and the service
responds 204 precisely when the processed body is byte-identical to the
input. -/
theorem tokenfree_body_passthrough (cipher : Cipher) (db : Vault)
    (ip dest body : String)
    (h1 : hasFormToken body = false)
    (h2 : ∀ j, json_loads body = some j → hasQuotedToken (dumps j) = false)
    (h3 : ∀ j md, json_loads body = some j → json_loads (dumps j) = some md →
        ∀ k ∈ FIELD_KEYS, jsonFieldNoTok md k = true) :
    detokenize_form_data cipher db ip dest body = (body, [])
  ∧ (json_loads body = none →
        detokenize_json cipher db ip dest body = (body, []))
  ∧ (∀ j, json_loads body = some j →
        (detokenize_json cipher db ip dest body).1 = body
      ∨ (detokenize_json cipher db ip dest body).1 = dumps j)
  ∧ (∀ ct, (reqmod_REQMOD cipher db ip dest ct body).1.status = 204
        ↔ (processBody cipher db ip dest ct body).1 = body) := by
  refine ⟨?_, ?_, ?_, ?_⟩
  · unfold detokenize_form_data
    rw [subFormTokensGo_nomatch cipher db ip dest body.data.length body.data h1]
  · intro h
    unfold detokenize_json
    simp only [h]
  · intro j hj
    unfold detokenize_json
    simp only [hj]
    have hsub : subJsonTokens cipher db ip dest (dumps j).data
        = ((dumps j).data, [], []) :=
      subJsonTokensGo_nomatch cipher db ip dest (dumps j).data.length
        (dumps j).data (h2 j hj)
    rw [hsub, string_mk_data]
    rcases hr : json_loads (dumps j) with _ | md
    · simp only [hr]
      exact Or.inl trivial
    · simp only [hr]
      cases md <;> simp only []
      case obj kvs =>
        rw [foldl_fieldFix_notok cipher db ip dest _ FIELD_KEYS kvs (dumps j) []
          (fun k hk => h3 j (.obj kvs) hj hr k hk)]
        exact Or.inr rfl
      all_goals exact Or.inr trivial
  · intro ct
    unfold reqmod_REQMOD
    dsimp only []
    split
    next hb =>
      exact iff_of_true rfl (by simpa using hb)
    next hb =>
      refine iff_of_false (by simp) (fun he => hb ?_)
      simp [he]

/-- Witness for the amended C3 at a canonical token-free JSON body. -/
theorem tokenfree_body_passthrough_witness :
    detokenize_form_data testCipher [] ("ip") ("d") ("\x7b\"a\": 1\x7d")
      = ("\x7b\"a\": 1\x7d", [])
  ∧ ((detokenize_json testCipher [] ("ip") ("d") ("\x7b\"a\": 1\x7d")).1
        = "\x7b\"a\": 1\x7d"
    ∨ (detokenize_json testCipher [] ("ip") ("d") ("\x7b\"a\": 1\x7d")).1
        = dumps (Json.obj [("a", Json.num 1)])) := by
  have h := tokenfree_body_passthrough testCipher [] ("ip") ("d")
    ("\x7b\"a\": 1\x7d") (by decide)
    (by
      intro j hj
      have hj0 : json_loads ("\x7b\"a\": 1\x7d")
          = some (Json.obj [("a", Json.num 1)]) := rfl
      rw [hj0] at hj
      injection hj with hj
      subst hj
      decide)
    (by
      intro j md hj hmd
      have hj0 : json_loads ("\x7b\"a\": 1\x7d")
          = some (Json.obj [("a", Json.num 1)]) := rfl
      rw [hj0] at hj
      injection hj with hj
      subst hj
      have hmd0 : json_loads (dumps (Json.obj [("a", Json.num 1)]))
          = some (Json.obj [("a", Json.num 1)]) := rfl
      rw [hmd0] at hmd
      injection hmd with hmd
      subst hmd
      decide)
  exact ⟨h.1, h.2.2.1 _ rfl⟩

/-! ### Claim C8: the emitted Content-Length versus the wire bytes -/

/-- C8 (code bug): on a form-urlencoded body `é<token>` whose token
resolves, the handler responds 200 and emits `Content-Length: 17` — the
*character* count of the rewritten body — while the chunked body written on
the wire is its UTF-8 encoding of 18 bytes. -/
theorem content_length_char_count_mismatch :
    (reqmod_REQMOD testCipher [wireRecord] ("ip") ("d")
        ("application/x-www-form-urlencoded") ("é" ++ tokA)).1
      = { status := 200, contentLength := some 17, wireBodyBytes := 18 }
  ∧ (17 : Nat) ≠ 18 := by
  refine ⟨by decide, by decide⟩

end TokenShield
